import Mathlib

/-!
# Verification of the `sqlparse` migration-script parser

A shallow embedding of `sqlparse/sqlparse.go` from j-whitehouse/sql-migrate.
The Go parser reads a migration script line by line; we model the input as a
`List String` of lines (the output of `bufio.Scanner` with the default line
splitter), the process-wide `LineSeparator` variable as an explicit `sep`
argument, and fallible Go code returning `error` as `Except ParseError`.

String primitives from the Go `strings` package are modelled on `String.data`
(`strings.HasPrefix`, `strings.HasSuffix`, `strings.Fields`,
`strings.TrimSpace`), which matches Go's byte/rune-wise behaviour for the
ASCII markers the parser uses.
-/

namespace Sqlparse

/-- Go `strings.HasPrefix s pre`. -/
def strStarts (s pre : String) : Bool := pre.data.isPrefixOf s.data

/-- Go `strings.HasSuffix s suf`. -/
def strEnds (s suf : String) : Bool := suf.data.isSuffixOf s.data

/-- Go `strings.TrimSpace`: drop leading and trailing whitespace. -/
def trimSpace (s : String) : String :=
  ⟨((s.data.dropWhile Char.isWhitespace).reverse.dropWhile Char.isWhitespace).reverse⟩

/-- Helper for `goFields`: split a character list into maximal
whitespace-free words (Go `strings.Fields` / `bufio.ScanWords`). -/
def splitWordsAux : List Char → List Char → List String
  | acc, [] => if acc.isEmpty then [] else [⟨acc.reverse⟩]
  | acc, c :: cs =>
    if c.isWhitespace then
      if acc.isEmpty then splitWordsAux [] cs
      else (⟨acc.reverse⟩ : String) :: splitWordsAux [] cs
    else splitWordsAux (c :: acc) cs

/-- Go `strings.Fields` (also the word stream `bufio.ScanWords` yields). -/
def goFields (s : String) : List String := splitWordsAux [] s.data

/-- Drop the first `n` characters of a string (Go slicing `line[n:]` for an
ASCII prefix of length `n`). -/
def strDrop (s : String) (n : Nat) : String := ⟨s.data.drop n⟩

/-- `sqlparse.go` line 14: the command marker `sqlCmdPrefix`. -/
def sqlCmdMarker : String := "-- +migrate "

/-- `sqlparse.go` line 15: `optionNoTransaction`. -/
def optionNoTransaction : String := "notransaction"

/-- The word-scanning loop of `endsWithSemicolon` (lines 60-66): remember the
last word seen before a word starting with `--`, or before end of line. -/
def lastWordScan : String → List String → String
  | prev, [] => prev
  | prev, w :: ws => if strStarts w "--" then prev else lastWordScan w ws

/-- `sqlparse.go` lines 54-69 `endsWithSemicolon`: does the last word before
any `--` comment end with a semicolon? -/
def endsWithSemicolon (line : String) : Bool :=
  strEnds (lastWordScan "" (goFields line)) ";"

/-- `sqlparse.go` lines 71-77 `migrationDirection`. -/
inductive migrationDirection
  | none
  | up
  | down
deriving DecidableEq, Repr

/-- `sqlparse.go` lines 18-22 `migrationStatement`. -/
structure migrationStatement where
  Statement : String
  Loop : Bool
  Conditional : String
deriving DecidableEq, Repr

/-- `sqlparse.go` lines 24-31 `ParsedMigration`. -/
structure ParsedMigration where
  UpStatements : List migrationStatement := []
  DownStatements : List migrationStatement := []
  DisableTransactionUp : Bool := false
  DisableTransactionDown : Bool := false
deriving DecidableEq, Repr

/-- The distinct terminal errors of `sqlparse.go`, one constructor per
`errors.New` site (plus `impossibleState` for the `panic` at line 283). -/
inductive ParseError
  | notMigrateCommand
  | incompleteCommand
  | noTerminator
  | nestedStatementBlock
  | conditionalOutsideLoop
  | nestedLoop
  | unclosedConditionalInLoop
  | unterminatedStatementBlock
  | unterminatedLoop
  | unterminatedConditional
  | noDirectionFound
  | impossibleState
deriving DecidableEq, Repr

/-- `sqlparse.go` lines 79-82 `migrateCommand`. -/
structure migrateCommand where
  Command : String
  Options : List String
deriving DecidableEq, Repr

/-- `sqlparse.go` lines 84-92 `HasOption`: linear scan by string equality. -/
def migrateCommand.HasOption (c : migrateCommand) (opt : String) : Bool :=
  c.Options.contains opt

/-- `sqlparse.go` lines 94-111 `parseCommand`. -/
def parseCommand (line : String) : Except ParseError migrateCommand :=
  if strStarts line sqlCmdMarker = false then .error .notMigrateCommand
  else
    match goFields (strDrop line sqlCmdMarker.data.length) with
    | [] => .error .incompleteCommand
    | c :: opts => .ok ⟨c, opts⟩

/-- The per-call working state of `ParseMigration` (locals declared at
lines 124-140 of `sqlparse.go`). -/
structure ParserState where
  p : ParsedMigration
  statementBuf : String
  conditionalBuf : String
  statementEnded : Bool
  ignoreSemicolons : Bool
  currentDirection : migrationDirection
  isLoop : Bool
  isConditional : Bool
deriving DecidableEq, Repr

/-- `sqlparse.go` lines 124-140: the state at the top of the scan loop.
Note line 138: `currentDirection := directionUp` ("for flyway script
compatibility"), not `directionNone`. -/
def initialState : ParserState :=
  { p := {}
    statementBuf := ""
    conditionalBuf := ""
    statementEnded := false
    ignoreSemicolons := false
    currentDirection := .up
    isLoop := false
    isConditional := false }

/-- The `switch cmd.Command` of `sqlparse.go` lines 156-233. -/
def applyCommand (s : ParserState) (cmd : migrateCommand) : Except ParseError ParserState :=
  if cmd.Command = "Up" then
    if trimSpace s.statementBuf ≠ "" then .error .noTerminator
    else if cmd.HasOption optionNoTransaction then
      .ok { s with currentDirection := .up
                   p := ⟨s.p.UpStatements, s.p.DownStatements,
                         true, s.p.DisableTransactionDown⟩ }
    else .ok { s with currentDirection := .up }
  else if cmd.Command = "Down" then
    if trimSpace s.statementBuf ≠ "" then .error .noTerminator
    else if cmd.HasOption optionNoTransaction then
      .ok { s with currentDirection := .down
                   p := ⟨s.p.UpStatements, s.p.DownStatements,
                         s.p.DisableTransactionUp, true⟩ }
    else .ok { s with currentDirection := .down }
  else if cmd.Command = "StatementBegin" then
    if s.isLoop = true ∨ s.isConditional = true then .error .nestedStatementBlock
    else
      match s.currentDirection with
      | .none => .ok s
      | _ => .ok { s with ignoreSemicolons := true }
  else if cmd.Command = "StatementEnd" then
    if s.isLoop = true ∨ s.isConditional = true then .ok s
    else
      match s.currentDirection with
      | .none => .ok s
      | _ => .ok { s with statementEnded := s.ignoreSemicolons, ignoreSemicolons := false }
  else if cmd.Command = "ConditionalBegin" then
    if s.isLoop = false then .error .conditionalOutsideLoop
    else .ok { s with isConditional := true }
  else if cmd.Command = "ConditionalEnd" then
    .ok { s with isConditional := false }
  else if cmd.Command = "LoopBegin" then
    if s.ignoreSemicolons = true then .error .nestedLoop
    else
      match s.currentDirection with
      | .none => .ok s
      | .up => .ok { s with isLoop := true
                            ignoreSemicolons := true
                            p := ⟨s.p.UpStatements, s.p.DownStatements,
                                  true, s.p.DisableTransactionDown⟩ }
      | .down => .ok { s with isLoop := true
                              ignoreSemicolons := true
                              p := ⟨s.p.UpStatements, s.p.DownStatements,
                                    s.p.DisableTransactionUp, true⟩ }
  else if cmd.Command = "LoopEnd" then
    if s.isConditional = true then .error .unclosedConditionalInLoop
    else if s.isLoop = false then .ok s
    else
      match s.currentDirection with
      | .none => .ok s
      | _ => .ok { s with statementEnded := s.ignoreSemicolons, ignoreSemicolons := false }
  else .ok s

/-- `sqlparse.go` lines 150-154: run `parseCommand` and the command switch
when the line carries the command marker. -/
def handleCommand (s : ParserState) (line : String) : Except ParseError ParserState :=
  if strStarts line sqlCmdMarker = true then
    match parseCommand line with
    | .error e => .error e
    | .ok cmd => applyCommand s cmd
  else .ok s

/-- `sqlparse.go` line 240: `isLineSeparator`. -/
def isSepLine (ignoreSemicolons : Bool) (sep line : String) : Prop :=
  ignoreSemicolons = false ∧ sep ≠ "" ∧ line = sep

instance (ign : Bool) (sep line : String) : Decidable (isSepLine ign sep line) := by
  unfold isSepLine; infer_instance

/-- `sqlparse.go` lines 242-248: outside a loop, append a line that is
neither the separator nor `-- +`-prefixed to the statement buffer. -/
def bufferPlain (sep : String) (s : ParserState) (line : String) : ParserState :=
  if ¬ isSepLine s.ignoreSemicolons sep line ∧ strStarts line "-- +" = false ∧ s.isLoop = false
  then { s with statementBuf := s.statementBuf ++ line ++ "\n" }
  else s

/-- `sqlparse.go` lines 250-261: inside a loop, append the line to the
conditional buffer when `isConditional`, else to the statement buffer. -/
def bufferLoop (s : ParserState) (line : String) : ParserState :=
  if s.isLoop = true then
    if s.isConditional = true then
      { s with conditionalBuf := s.conditionalBuf ++ line ++ "\n" }
    else
      { s with statementBuf := s.statementBuf ++ line ++ "\n" }
  else s

/-- `sqlparse.go` lines 240-261: the two sequential accumulation blocks. -/
def bufferLine (sep : String) (s : ParserState) (line : String) : ParserState :=
  bufferLoop (bufferPlain sep s line) line

/-- `sqlparse.go` lines 272-288: emit the accumulated buffers as one
`migrationStatement` for the current direction; the `default: panic` arm is
modelled as the error `impossibleState`. -/
def emitStatement (s : ParserState) : Except ParseError ParserState :=
  match s.currentDirection with
  | .up =>
    .ok { s with statementEnded := false
                 isLoop := false
                 statementBuf := ""
                 conditionalBuf := ""
                 p := ⟨s.p.UpStatements ++ [⟨s.statementBuf, s.isLoop, s.conditionalBuf⟩],
                       s.p.DownStatements, s.p.DisableTransactionUp, s.p.DisableTransactionDown⟩ }
  | .down =>
    .ok { s with statementEnded := false
                 isLoop := false
                 statementBuf := ""
                 conditionalBuf := ""
                 p := ⟨s.p.UpStatements,
                       s.p.DownStatements ++ [⟨s.statementBuf, s.isLoop, s.conditionalBuf⟩],
                       s.p.DisableTransactionUp, s.p.DisableTransactionDown⟩ }
  | .none => .error .impossibleState

/-- `sqlparse.go` line 271: the flush condition, and the flush itself. -/
def maybeEmit (sep : String) (s : ParserState) (line : String) : Except ParseError ParserState :=
  if (s.ignoreSemicolons = false
        ∧ (endsWithSemicolon line = true ∨ isSepLine s.ignoreSemicolons sep line))
      ∨ s.statementEnded = true
  then emitStatement s
  else .ok s

/-- One iteration of the scan loop of `ParseMigration`
(`sqlparse.go` lines 142-290). -/
def processLine (sep : String) (s : ParserState) (line : String) : Except ParseError ParserState :=
  if strStarts line "-- " = true ∧ strStarts line "-- +" = false then .ok s
  else
    match handleCommand s line with
    | .error e => .error e
    | .ok s1 =>
      if s1.currentDirection = .none then .ok s1
      else maybeEmit sep (bufferLine sep s1 line) line

/-- The scan loop itself: run `processLine` over every input line,
stopping at the first error. -/
def runLines (sep : String) (s : ParserState) : List String → Except ParseError ParserState
  | [] => .ok s
  | l :: ls =>
    match processLine sep s l with
    | .error e => .error e
    | .ok s' => runLines sep s' ls

/-- `sqlparse.go` lines 296-323: the end-of-input checks, in source order. -/
def finishMigration (s : ParserState) : Except ParseError ParsedMigration :=
  if s.ignoreSemicolons = true then .error .unterminatedStatementBlock
  else if s.isLoop = true then .error .unterminatedLoop
  else if s.isConditional = true then .error .unterminatedConditional
  else if s.currentDirection = .none then .error .noDirectionFound
  else if trimSpace s.statementBuf ≠ "" ∧ strStarts s.statementBuf "-- +" = false then
    .error .noTerminator
  else .ok s.p

/-- `sqlparse.go` lines 123-324 `ParseMigration`, with the input stream
presented as its list of lines and the process-wide `LineSeparator` as the
explicit argument `sep`. -/
def ParseMigration (sep : String) (lines : List String) : Except ParseError ParsedMigration :=
  match runLines sep initialState lines with
  | .error e => .error e
  | .ok s => finishMigration s

/-! ## String helper lemmas -/

theorem strStarts_trans {l p q : String} (h : strStarts l p = true)
    (hpq : strStarts p q = true) : strStarts l q = true := by
  unfold strStarts at *
  rw [List.isPrefixOf_iff_prefix] at *
  exact hpq.trans h

theorem strStarts_dashes_of_cmd {l : String} (h : strStarts l sqlCmdMarker = true) :
    strStarts l "-- " = true := strStarts_trans h (by decide)

theorem strStarts_dashes_of_plus {l : String} (h : strStarts l "-- +" = true) :
    strStarts l "-- " = true := strStarts_trans h (by decide)

theorem strStarts_plus_of_cmd {l : String} (h : strStarts l sqlCmdMarker = true) :
    strStarts l "-- +" = true := strStarts_trans h (by decide)

theorem strStarts_cmd_eq_false {l : String} (h : strStarts l "-- " = false) :
    strStarts l sqlCmdMarker = false := by
  cases hc : strStarts l sqlCmdMarker
  · rfl
  · rw [strStarts_dashes_of_cmd hc] at h; exact absurd h (by simp)

theorem strStarts_plus_eq_false {l : String} (h : strStarts l "-- " = false) :
    strStarts l "-- +" = false := by
  cases hc : strStarts l "-- +"
  · rfl
  · rw [strStarts_dashes_of_plus hc] at h; exact absurd h (by simp)

theorem splitWordsAux_dashes (t : List Char) :
    splitWordsAux [] ('-' :: '-' :: ' ' :: t) = "--" :: splitWordsAux [] t := by
  simp [splitWordsAux]

theorem endsWithSemicolon_of_dashes {l : String} (h : strStarts l "-- " = true) :
    endsWithSemicolon l = false := by
  unfold strStarts at h
  rw [List.isPrefixOf_iff_prefix] at h
  obtain ⟨t, ht⟩ := h
  have hd : l.data = '-' :: '-' :: ' ' :: t := ht.symm
  unfold endsWithSemicolon goFields
  rw [hd, splitWordsAux_dashes]
  simp [lastWordScan, strStarts]
  rfl

theorem strApp_data (a b : String) : (a ++ b).data = a.data ++ b.data :=
  String.data_append a b

theorem strApp_assoc (a b c : String) : a ++ b ++ c = a ++ (b ++ c) := by
  apply String.ext
  simp [strApp_data]

theorem strApp_empty_left (a : String) : "" ++ a = a := by
  apply String.ext
  simp [strApp_data]

theorem strApp_ne_empty {a b : String} (h : a ≠ "") : a ++ b ≠ "" := by
  intro hc
  apply h
  apply String.ext
  have := congrArg String.data hc
  rw [strApp_data] at this
  have h2 : a.data = [] := by
    cases hd : a.data with
    | nil => rfl
    | cons x xs => rw [hd] at this; simp at this
  rw [h2]

/-! ## Structural lemmas about one parser step -/

set_option maxHeartbeats 1600000 in
theorem applyCommand_bufs {s s' : ParserState} {cmd : migrateCommand}
    (h : applyCommand s cmd = .ok s') :
    s'.statementBuf = s.statementBuf ∧ s'.conditionalBuf = s.conditionalBuf := by
  unfold applyCommand at h
  repeat' split at h
  all_goals
    first
      | exact (Except.noConfusion h)
      | (injection h with h; subst h; exact ⟨rfl, rfl⟩)

theorem maybeEmit_cases {sep line : String} {s s' : ParserState}
    (h : maybeEmit sep s line = .ok s') :
    s' = s ∨ (s'.statementBuf = "" ∧ s'.conditionalBuf = ""
               ∧ s'.isLoop = false ∧ s'.statementEnded = false) := by
  unfold maybeEmit emitStatement at h
  split at h
  · split at h
    · injection h with h; subst h; right; exact ⟨rfl, rfl, rfl, rfl⟩
    · injection h with h; subst h; right; exact ⟨rfl, rfl, rfl, rfl⟩
    · exact absurd h (by simp)
  · injection h with h; subst h; left; rfl

/-- The reachable-state invariant maintained between loop iterations. -/
def Inv (s : ParserState) : Prop :=
  s.currentDirection ≠ .none ∧
  s.statementEnded = false ∧
  (s.isLoop = true → s.ignoreSemicolons = true) ∧
  (s.isConditional = true → s.isLoop = true) ∧
  (s.conditionalBuf ≠ "" → s.isLoop = true) ∧
  (∀ st ∈ s.p.UpStatements, st.Conditional ≠ "" → st.Loop = true) ∧
  (∀ st ∈ s.p.DownStatements, st.Conditional ≠ "" → st.Loop = true)

/-- The weaker invariant holding between command handling and the flush. -/
def MidInv (s : ParserState) : Prop :=
  s.currentDirection ≠ .none ∧
  (s.isConditional = true → s.isLoop = true) ∧
  (s.conditionalBuf ≠ "" → s.isLoop = true) ∧
  (s.isLoop = true → s.ignoreSemicolons = true ∨ s.statementEnded = true) ∧
  (s.statementEnded = true → s.isConditional = false) ∧
  (∀ st ∈ s.p.UpStatements, st.Conditional ≠ "" → st.Loop = true) ∧
  (∀ st ∈ s.p.DownStatements, st.Conditional ≠ "" → st.Loop = true)

theorem initialState_inv : Inv initialState := by
  refine ⟨by simp [initialState], rfl, ?_, ?_, ?_, ?_, ?_⟩ <;> simp [initialState]

theorem midInv_of_inv {s : ParserState} (h : Inv s) : MidInv s := by
  obtain ⟨h1, h2, h3, h4, h5, h6, h7⟩ := h
  exact ⟨h1, h4, h5, fun hl => Or.inl (h3 hl), by simp [h2], h6, h7⟩

set_option maxHeartbeats 1600000 in
theorem applyCommand_midInv {s s' : ParserState} {cmd : migrateCommand}
    (hs : Inv s) (h : applyCommand s cmd = .ok s') : MidInv s' := by
  obtain ⟨h1, h2, h3, h4, h5, h6, h7⟩ := hs
  unfold applyCommand at h
  repeat' split at h
  all_goals
    first
      | exact (Except.noConfusion h)
      | (injection h with h; subst h;
         refine ⟨?_, ?_, ?_, ?_, ?_, ?_, ?_⟩ <;> simp_all)

theorem bufferPlain_midInv {sep line : String} {s : ParserState}
    (hs : MidInv s) : MidInv (bufferPlain sep s line) := by
  unfold bufferPlain
  split
  · exact hs
  · exact hs

theorem bufferLoop_midInv {line : String} {s : ParserState}
    (hs : MidInv s) : MidInv (bufferLoop s line) := by
  obtain ⟨h1, h2, h3, h4, h5, h6, h7⟩ := hs
  unfold bufferLoop
  split
  · rename_i hl
    split
    · exact ⟨h1, fun _ => hl, fun _ => hl, fun _ => h4 hl, h5, h6, h7⟩
    · exact ⟨h1, fun _ => hl, fun _ => hl, fun _ => h4 hl, h5, h6, h7⟩
  · exact ⟨h1, h2, h3, h4, h5, h6, h7⟩

theorem bufferLine_midInv {sep line : String} {s : ParserState}
    (hs : MidInv s) : MidInv (bufferLine sep s line) :=
  bufferLoop_midInv (bufferPlain_midInv hs)

theorem maybeEmit_inv {sep line : String} {s s' : ParserState}
    (hs : MidInv s) (h : maybeEmit sep s line = .ok s') : Inv s' := by
  obtain ⟨h1, h2, h3, h4, h5, h6, h7⟩ := hs
  unfold maybeEmit at h
  split at h
  · rename_i hcond
    have hic : s.isConditional = false := by
      cases hic : s.isConditional
      · rfl
      · have hl := h2 hic
        rcases h4 hl with hig | hse
        · rcases hcond with ⟨hig2, _⟩ | hse
          · rw [hig2] at hig; exact absurd hig (by simp)
          · rw [h5 hse] at hic; exact absurd hic (by simp)
        · rw [h5 hse] at hic; exact absurd hic (by simp)
    unfold emitStatement at h
    split at h
    · injection h with h
      subst h
      refine ⟨h1, rfl, fun hc => Bool.noConfusion hc,
              fun hc => Bool.noConfusion (hic.symm.trans hc),
              fun hc => absurd rfl hc, ?_, h7⟩
      intro st hst
      rcases List.mem_append.mp hst with hmem | hmem
      · exact h6 st hmem
      · simp at hmem; subst hmem; exact fun hc => h3 hc
    · injection h with h
      subst h
      refine ⟨h1, rfl, fun hc => Bool.noConfusion hc,
              fun hc => Bool.noConfusion (hic.symm.trans hc),
              fun hc => absurd rfl hc, h6, ?_⟩
      intro st hst
      rcases List.mem_append.mp hst with hmem | hmem
      · exact h7 st hmem
      · simp at hmem; subst hmem; exact fun hc => h3 hc
    · exact absurd h (by simp)
  · rename_i hcond
    simp at h
    subst h
    push_neg at hcond
    obtain ⟨hcond1, hse⟩ := hcond
    have hse' : s.statementEnded = false := by simpa using hse
    refine ⟨h1, hse', ?_, h2, h3, h6, h7⟩
    intro hl
    rcases h4 hl with hig | hst
    · exact hig
    · rw [hst] at hse'; exact absurd hse' (by simp)

theorem processLine_inv {sep line : String} {s s' : ParserState}
    (hs : Inv s) (h : processLine sep s line = .ok s') : Inv s' := by
  unfold processLine at h
  split at h
  · simp at h; subst h; exact hs
  · rename_i hnc
    cases hc : handleCommand s line with
    | error e => rw [hc] at h; simp at h
    | ok s1 =>
      rw [hc] at h
      have hmid : MidInv s1 := by
        unfold handleCommand at hc
        split at hc
        · cases hp : parseCommand line with
          | error e => rw [hp] at hc; simp at hc
          | ok cmd => rw [hp] at hc; exact applyCommand_midInv hs hc
        · simp at hc; subst hc; exact midInv_of_inv hs
      simp only [if_neg hmid.1] at h
      exact maybeEmit_inv (bufferLine_midInv hmid) h

theorem runLines_inv {sep : String} {ls : List String} {s s' : ParserState}
    (hs : Inv s) (h : runLines sep s ls = .ok s') : Inv s' := by
  induction ls generalizing s with
  | nil => simp [runLines] at h; subst h; exact hs
  | cons l ls ih =>
    unfold runLines at h
    cases hp : processLine sep s l with
    | error e => rw [hp] at h; simp at h
    | ok s1 => rw [hp] at h; exact ih (processLine_inv hs hp) h

/-! ## Which errors each stage can produce -/

theorem parseCommand_error {line : String} {e : ParseError}
    (h : parseCommand line = .error e) : e ≠ .noDirectionFound := by
  unfold parseCommand at h
  repeat' split at h
  all_goals
    first
      | exact (Except.noConfusion h)
      | (injection h with h; subst h; simp)

theorem applyCommand_error {s : ParserState} {cmd : migrateCommand} {e : ParseError}
    (h : applyCommand s cmd = .error e) : e ≠ .noDirectionFound := by
  unfold applyCommand at h
  repeat' split at h
  all_goals
    first
      | exact (Except.noConfusion h)
      | (injection h with h; subst h; simp)

theorem maybeEmit_error {sep line : String} {s : ParserState} {e : ParseError}
    (h : maybeEmit sep s line = .error e) : e ≠ .noDirectionFound := by
  unfold maybeEmit emitStatement at h
  repeat' split at h
  all_goals
    first
      | exact (Except.noConfusion h)
      | (injection h with h; subst h; simp)

theorem handleCommand_error {line : String} {s : ParserState} {e : ParseError}
    (h : handleCommand s line = .error e) : e ≠ .noDirectionFound := by
  unfold handleCommand at h
  split at h
  · split at h
    · rename_i e0 heq
      injection h with h
      subst h
      exact parseCommand_error heq
    · exact applyCommand_error h
  · exact (Except.noConfusion h)

theorem processLine_error {sep line : String} {s : ParserState} {e : ParseError}
    (h : processLine sep s line = .error e) : e ≠ .noDirectionFound := by
  unfold processLine at h
  split at h
  · exact (Except.noConfusion h)
  · split at h
    · rename_i e0 heq
      injection h with h
      subst h
      exact handleCommand_error heq
    · split at h
      · exact (Except.noConfusion h)
      · exact maybeEmit_error h

theorem runLines_error {sep : String} {ls : List String} {s : ParserState} {e : ParseError}
    (h : runLines sep s ls = .error e) : e ≠ .noDirectionFound := by
  induction ls generalizing s with
  | nil => exact (Except.noConfusion h)
  | cons l ls ih =>
    unfold runLines at h
    split at h
    · rename_i e0 heq
      injection h with h
      subst h
      exact processLine_error heq
    · exact ih h

/-! ## Decomposing a whole-parse result -/

theorem ParseMigration_ok_iff {sep : String} {lines : List String} {doc : ParsedMigration} :
    ParseMigration sep lines = .ok doc ↔
      ∃ s, runLines sep initialState lines = .ok s ∧ finishMigration s = .ok doc := by
  constructor
  · intro h
    unfold ParseMigration at h
    split at h
    · exact (Except.noConfusion h)
    · rename_i s heq
      exact ⟨s, heq, h⟩
  · rintro ⟨s, hs, hf⟩
    unfold ParseMigration
    rw [hs]
    exact hf

theorem finishMigration_ok {s : ParserState} {doc : ParsedMigration}
    (h : finishMigration s = .ok doc) :
    doc = s.p ∧ s.ignoreSemicolons = false ∧ s.isLoop = false ∧ s.isConditional = false := by
  unfold finishMigration at h
  repeat' split at h
  all_goals
    first
      | exact (Except.noConfusion h)
      | (injection h with h; subst h;
         refine ⟨rfl, ?_, ?_, ?_⟩ <;> simp_all)

/-! ## Claim C1 -/

/-- C1, counterexample: the script `x;` contains no `Up` and no `Down`
annotation line, yet `ParseMigration` returns a document (with the statement
attributed to the Up direction) instead of failing with the
no-direction-found error. -/
theorem noAnnotationScript_returnsDocument :
    ParseMigration "" ["x;"] = .ok ⟨[⟨"x;\n", false, ""⟩], [], false, false⟩ := by
  rfl

/-- C1, amended: `ParseMigration` can never fail with the no-direction-found
error, on any input and any configured separator: the working direction is
initialised to Up (never None), every per-line error is a different error
kind, and the end-of-input check for a None direction is therefore
unreachable. -/
theorem ParseMigration_never_noDirectionFound (sep : String) (lines : List String) :
    ParseMigration sep lines ≠ .error .noDirectionFound := by
  unfold ParseMigration
  split
  · rename_i e heq
    intro hc
    injection hc with hc
    exact runLines_error heq hc
  · rename_i s heq
    have hInv := runLines_inv initialState_inv heq
    have hd := hInv.1
    unfold finishMigration
    split_ifs <;> simp_all

/-! ## Claim C6 -/

/-- C6: in every document `ParseMigration` returns, each statement block of
either direction with a non-empty conditional text has its loop flag set. -/
theorem conditionalText_nonempty_implies_isLoop {sep : String} {lines : List String}
    {doc : ParsedMigration} (h : ParseMigration sep lines = .ok doc) :
    ∀ st, (st ∈ doc.UpStatements ∨ st ∈ doc.DownStatements) →
      st.Conditional ≠ "" → st.Loop = true := by
  obtain ⟨s, hr, hf⟩ := ParseMigration_ok_iff.mp h
  have hInv := runLines_inv initialState_inv hr
  obtain ⟨hdoc, -, -, -⟩ := finishMigration_ok hf
  subst hdoc
  intro st hst
  rcases hst with hst | hst
  · exact hInv.2.2.2.2.2.1 st hst
  · exact hInv.2.2.2.2.2.2 st hst

/-- C6, witness: the invariant instantiated on a concrete loop script and
the concrete statement block it emits, whose conditional text is non-empty,
concluding that its loop flag is true. -/
theorem conditionalText_nonempty_implies_isLoop_witness :
    (⟨"-- +migrate LoopBegin\n-- +migrate ConditionalEnd\n-- +migrate LoopEnd\n",
       true, "-- +migrate ConditionalBegin\nq;\n"⟩ : migrationStatement).Loop = true :=
  conditionalText_nonempty_implies_isLoop
    (show ParseMigration "" ["-- +migrate Up", "-- +migrate LoopBegin",
        "-- +migrate ConditionalBegin", "q;", "-- +migrate ConditionalEnd",
        "-- +migrate LoopEnd"] =
      .ok ⟨[⟨"-- +migrate LoopBegin\n-- +migrate ConditionalEnd\n-- +migrate LoopEnd\n",
             true, "-- +migrate ConditionalBegin\nq;\n"⟩], [], true, false⟩ from rfl)
    ⟨"-- +migrate LoopBegin\n-- +migrate ConditionalEnd\n-- +migrate LoopEnd\n",
      true, "-- +migrate ConditionalBegin\nq;\n"⟩
    (Or.inl (by simp)) (by decide)

/-! ## Claim C7 -/

/-- C7: at end of input the final checks run in source order, first failure
winning: `ignoreSemicolons` still true gives the unterminated-statement-block
error; else `isLoop` still true gives the unterminated-loop error; else
`isConditional` still true gives the unterminated-conditional error; else a
direction that never left None gives the no-direction-found error; else a
statement buffer holding non-whitespace text that does not start with the
annotation-comment marker `-- +` gives the missing-terminator error; else
the accumulated document is returned. -/
theorem endOfInput_checks_order {sep : String} {lines : List String} {s : ParserState}
    (h : runLines sep initialState lines = .ok s) :
    (s.ignoreSemicolons = true →
       ParseMigration sep lines = .error .unterminatedStatementBlock)
  ∧ (s.ignoreSemicolons = false → s.isLoop = true →
       ParseMigration sep lines = .error .unterminatedLoop)
  ∧ (s.ignoreSemicolons = false → s.isLoop = false → s.isConditional = true →
       ParseMigration sep lines = .error .unterminatedConditional)
  ∧ (s.ignoreSemicolons = false → s.isLoop = false → s.isConditional = false →
       s.currentDirection = .none →
       ParseMigration sep lines = .error .noDirectionFound)
  ∧ (s.ignoreSemicolons = false → s.isLoop = false → s.isConditional = false →
       s.currentDirection ≠ .none →
       trimSpace s.statementBuf ≠ "" → strStarts s.statementBuf "-- +" = false →
       ParseMigration sep lines = .error .noTerminator)
  ∧ (s.ignoreSemicolons = false → s.isLoop = false → s.isConditional = false →
       s.currentDirection ≠ .none →
       (trimSpace s.statementBuf = "" ∨ strStarts s.statementBuf "-- +" = true) →
       ParseMigration sep lines = .ok s.p) := by
  have hP : ParseMigration sep lines = finishMigration s := by
    unfold ParseMigration
    rw [h]
  rw [hP]
  unfold finishMigration
  refine ⟨?_, ?_, ?_, ?_, ?_, ?_⟩
  · intro h1
    rw [if_pos h1]
  · intro h1 h2
    rw [if_neg (by simp [h1]), if_pos h2]
  · intro h1 h2 h3
    rw [if_neg (by simp [h1]), if_neg (by simp [h2]), if_pos h3]
  · intro h1 h2 h3 h4
    rw [if_neg (by simp [h1]), if_neg (by simp [h2]), if_neg (by simp [h3]), if_pos h4]
  · intro h1 h2 h3 h4 h5 h6
    rw [if_neg (by simp [h1]), if_neg (by simp [h2]), if_neg (by simp [h3]),
        if_neg h4, if_pos ⟨h5, h6⟩]
  · intro h1 h2 h3 h4 h5
    rw [if_neg (by simp [h1]), if_neg (by simp [h2]), if_neg (by simp [h3]),
        if_neg h4, if_neg (by rcases h5 with h5 | h5 <;> simp [h5])]

/-- C7, witness: a script ending inside an explicit statement block reaches
end of input with `ignoreSemicolons` still true and fails with the
unterminated-statement-block error. -/
theorem endOfInput_checks_order_witness :
    ParseMigration "" ["-- +migrate Up", "-- +migrate StatementBegin"] =
      .error .unterminatedStatementBlock :=
  (endOfInput_checks_order
    (s := ⟨⟨[], [], false, false⟩, "", "", false, true, .up, false, false⟩)
    (by rfl)).1 rfl

/-! ## Claim C9 -/

/-- C9, counterexample: the line `--x;` starts with a double dash and does
not start with the command prefix, yet it is not discarded: processing it
appends it to the statement buffer (the comment is a dash-dash-space test,
not a double-dash test), and the whole parse of a script ending in that line
fails with the missing-terminator error where the claim predicts an empty
document. -/
theorem doubleDash_line_not_discarded :
    processLine "" initialState "--x;" =
      .ok ⟨⟨[], [], false, false⟩, "--x;\n", "", false, false, .up, false, false⟩ ∧
    ParseMigration "" ["-- +migrate Up", "--x;"] = .error .noTerminator :=
  ⟨rfl, rfl⟩

/-- C9, amended: plain comment lines are those starting with `-- ` (dash,
dash, space) but not with `-- +`; such a line is discarded entirely: it
changes no state, is appended to no buffer, and never triggers a statement
boundary. -/
theorem comment_lines_discarded {sep line : String} {s : ParserState}
    (h1 : strStarts line "-- " = true) (h2 : strStarts line "-- +" = false) :
    processLine sep s line = .ok s := by
  unfold processLine
  rw [if_pos ⟨h1, h2⟩]

/-- C9, witness: a concrete comment line leaves a concrete state untouched. -/
theorem comment_lines_discarded_witness :
    processLine "" initialState "-- nothing to do here;" = .ok initialState :=
  comment_lines_discarded (by rfl) (by rfl)

/-! ## Claim C8 -/

theorem handleCommand_noCmd {line : String} (s : ParserState)
    (h : strStarts line sqlCmdMarker = false) : handleCommand s line = .ok s := by
  unfold handleCommand
  rw [if_neg (by simp [h])]

theorem bufferLine_noAppend {sep line : String} {s : ParserState}
    (hl : s.isLoop = false)
    (hc : strStarts line "-- +" = true ∨ isSepLine s.ignoreSemicolons sep line) :
    bufferLine sep s line = s := by
  have h1 : bufferPlain sep s line = s := by
    unfold bufferPlain
    rcases hc with hc | hc
    · rw [if_neg (by simp [hc])]
    · exact if_neg (fun hcond => hcond.1 hc)
  have h2 : bufferLoop s line = s := by
    unfold bufferLoop
    rw [if_neg (by simp [hl])]
  unfold bufferLine
  rw [h1, h2]

/-- C8, counterexample: with configured separator `GO`, the line `" GO"`
trims to exactly the separator while semicolons are not being ignored, but
the code compares the raw line, so it is not treated as a boundary: the line
is buffered and the parse fails with the missing-terminator error instead of
returning the one-statement document the claim predicts. -/
theorem trimmed_separator_not_boundary :
    trimSpace " GO" = "GO" ∧
    ParseMigration "GO" ["-- +migrate Up", "x;", " GO"] = .error .noTerminator :=
  ⟨rfl, rfl⟩

/-- C8, amended: a content line (not a comment or command line) concludes the
current statement as a separator boundary, excluded from the accumulated
text, exactly when the entire line equals the configured non-empty separator
and the parser is not ignoring semicolons; otherwise (still ignoring
semicolons, or raw inequality — even if only by surrounding whitespace) a
line that does not end with a semicolon is appended and is no boundary. -/
theorem separator_exact_match {sep line : String} {s : ParserState}
    (hsep : sep ≠ "") (hline : strStarts line "-- " = false)
    (hst : s.statementEnded = false) (hl : s.isLoop = false)
    (hd : s.currentDirection ≠ .none) :
    (s.ignoreSemicolons = false → line = sep →
       processLine sep s line = emitStatement s)
  ∧ ((s.ignoreSemicolons = true ∨ line ≠ sep) → endsWithSemicolon line = false →
       processLine sep s line =
         .ok { s with statementBuf := s.statementBuf ++ line ++ "\n" }) := by
  constructor
  · intro hig heq
    have hsl : isSepLine s.ignoreSemicolons sep line := ⟨hig, hsep, heq⟩
    unfold processLine
    rw [if_neg (by simp [hline]), handleCommand_noCmd s (strStarts_cmd_eq_false hline)]
    show (if s.currentDirection = .none then (Except.ok s : Except ParseError ParserState)
          else maybeEmit sep (bufferLine sep s line) line) = _
    rw [if_neg hd, bufferLine_noAppend hl (Or.inr hsl)]
    unfold maybeEmit
    rw [if_pos (Or.inl ⟨hig, Or.inr hsl⟩)]
  · intro hns hews
    have hnsl : ¬ isSepLine s.ignoreSemicolons sep line := by
      rintro ⟨hig0, -, heq0⟩
      rcases hns with hns | hns
      · rw [hns] at hig0; exact Bool.noConfusion hig0
      · exact hns heq0
    unfold processLine
    rw [if_neg (by simp [hline]), handleCommand_noCmd s (strStarts_cmd_eq_false hline)]
    show (if s.currentDirection = .none then (Except.ok s : Except ParseError ParserState)
          else maybeEmit sep (bufferLine sep s line) line) = _
    rw [if_neg hd]
    have hbp : bufferPlain sep s line =
        { s with statementBuf := s.statementBuf ++ line ++ "\n" } := by
      unfold bufferPlain
      rw [if_pos ⟨hnsl, strStarts_plus_eq_false hline, hl⟩]
    have hblp : bufferLine sep s line =
        { s with statementBuf := s.statementBuf ++ line ++ "\n" } := by
      unfold bufferLine
      rw [hbp]
      unfold bufferLoop
      rw [if_neg (by simp [hl])]
    rw [hblp]
    unfold maybeEmit
    rw [if_neg ?_]
    rintro (⟨hig2, hor⟩ | hse)
    · rcases hor with hor | hor
      · rw [hews] at hor; exact Bool.noConfusion hor
      · exact hnsl hor
    · rw [hst] at hse; exact Bool.noConfusion hse

/-- C8, witness: at a concrete state with buffered text `x`, the exact line
`GO` under separator `GO` flushes with the line excluded. -/
theorem separator_exact_match_witness :
    processLine "GO" ⟨⟨[], [], false, false⟩, "x\n", "", false, false, .up, false, false⟩ "GO" =
      emitStatement ⟨⟨[], [], false, false⟩, "x\n", "", false, false, .up, false, false⟩ :=
  (separator_exact_match (by decide) (by rfl) rfl rfl (by simp)).1 rfl rfl

/-! ## Claim C2 -/

theorem handleCommand_bufs {line : String} {s s1 : ParserState}
    (h : handleCommand s line = .ok s1) :
    s1.statementBuf = s.statementBuf ∧ s1.conditionalBuf = s.conditionalBuf := by
  unfold handleCommand at h
  split at h
  · split at h
    · exact (Except.noConfusion h)
    · exact applyCommand_bufs h
  · injection h with h
    subst h
    exact ⟨rfl, rfl⟩

theorem bufferPlain_isLoop (sep line : String) (s : ParserState) :
    (bufferPlain sep s line).isLoop = s.isLoop := by
  unfold bufferPlain
  split <;> rfl

theorem bufferLoop_isLoop (line : String) (s : ParserState) :
    (bufferLoop s line).isLoop = s.isLoop := by
  unfold bufferLoop
  split
  · split <;> rfl
  · rfl

theorem bufferLine_isLoop (sep line : String) (s : ParserState) :
    (bufferLine sep s line).isLoop = s.isLoop := by
  unfold bufferLine
  rw [bufferLoop_isLoop, bufferPlain_isLoop]

/-- C2, counterexample: inside a loop region the annotation lines themselves
are appended to the statement buffer, so the `-- +migrate LoopBegin` and
`-- +migrate LoopEnd` command lines appear verbatim in the emitted block's
text (which starts with the command prefix). -/
theorem annotation_lines_buffered_in_loop :
    ParseMigration "" ["-- +migrate Up", "-- +migrate LoopBegin", "x;",
        "-- +migrate LoopEnd"] =
      .ok ⟨[⟨"-- +migrate LoopBegin\nx;\n-- +migrate LoopEnd\n", true, ""⟩],
           [], true, false⟩ ∧
    strStarts "-- +migrate LoopBegin\nx;\n-- +migrate LoopEnd\n" sqlCmdMarker = true :=
  ⟨rfl, rfl⟩

/-- C2, amended: for a line processed while semicolons are not ignored and
the parser is outside a loop both before and after the line (so in
particular for any line handled outside loop regions), if the line equals
the configured non-empty separator or carries the command prefix, its text
is never appended: each buffer is either left unchanged or reset to empty by
a flush. Inside loop regions command lines are appended (see the
counterexample). -/
theorem commandOrSeparator_lines_not_buffered {sep line : String} {s s' : ParserState}
    (hcase : (line = sep ∧ sep ≠ "") ∨ strStarts line sqlCmdMarker = true)
    (hig : s.ignoreSemicolons = false) (hl : s.isLoop = false)
    (hok : processLine sep s line = .ok s') (hl' : s'.isLoop = false) :
    (s'.statementBuf = s.statementBuf ∨ s'.statementBuf = "") ∧
    (s'.conditionalBuf = s.conditionalBuf ∨ s'.conditionalBuf = "") := by
  unfold processLine at hok
  by_cases hcmt : strStarts line "-- " = true ∧ strStarts line "-- +" = false
  · rw [if_pos hcmt] at hok
    injection hok with hok
    subst hok
    exact ⟨Or.inl rfl, Or.inl rfl⟩
  · rw [if_neg hcmt] at hok
    split at hok
    · exact (Except.noConfusion hok)
    · rename_i s1 heq
      have hbufs := handleCommand_bufs heq
      split at hok
      · injection hok with hok
        subst hok
        exact ⟨Or.inl hbufs.1, Or.inl hbufs.2⟩
      · rcases maybeEmit_cases hok with hE | hE
        · have hs1l : s1.isLoop = false := by
            rw [hE, bufferLine_isLoop] at hl'
            exact hl'
          have hnb : bufferLine sep s1 line = s1 := by
            apply bufferLine_noAppend hs1l
            by_cases hcmd : strStarts line sqlCmdMarker = true
            · exact Or.inl (strStarts_plus_of_cmd hcmd)
            · have hs1 : s1 = s := by
                have h0 := (handleCommand_noCmd s (by simpa using hcmd)).symm.trans heq
                injection h0 with h0
                exact h0.symm
              rcases hcase with ⟨hline, hsep⟩ | hC
              · right
                rw [hs1]
                exact ⟨hig, hsep, hline⟩
              · exact absurd hC hcmd
          rw [hnb] at hE
          subst hE
          exact ⟨Or.inl hbufs.1, Or.inl hbufs.2⟩
        · exact ⟨Or.inr hE.1, Or.inr hE.2.1⟩

/-- C2, witness: a concrete `StatementBegin` command line processed outside a
loop leaves both buffers unchanged. -/
theorem commandOrSeparator_lines_not_buffered_witness :
    ((⟨⟨[], [], false, false⟩, "a\n", "", false, true, .up, false, false⟩ :
        ParserState).statementBuf =
      (⟨⟨[], [], false, false⟩, "a\n", "", false, false, .up, false, false⟩ :
        ParserState).statementBuf ∨
     (⟨⟨[], [], false, false⟩, "a\n", "", false, true, .up, false, false⟩ :
        ParserState).statementBuf = "") ∧
    ((⟨⟨[], [], false, false⟩, "a\n", "", false, true, .up, false, false⟩ :
        ParserState).conditionalBuf =
      (⟨⟨[], [], false, false⟩, "a\n", "", false, false, .up, false, false⟩ :
        ParserState).conditionalBuf ∨
     (⟨⟨[], [], false, false⟩, "a\n", "", false, true, .up, false, false⟩ :
        ParserState).conditionalBuf = "") :=
  commandOrSeparator_lines_not_buffered
    (Or.inr (show strStarts "-- +migrate StatementBegin" sqlCmdMarker = true from rfl))
    rfl rfl
    (show processLine ""
        ⟨⟨[], [], false, false⟩, "a\n", "", false, false, .up, false, false⟩
        "-- +migrate StatementBegin" =
      .ok ⟨⟨[], [], false, false⟩, "a\n", "", false, true, .up, false, false⟩ from rfl)
    rfl

/-! ## Direction-indexed helpers and single-step lemmas -/

/-- The per-direction disable-transaction update done by `LoopBegin`. -/
def setDisable (d : migrationDirection) (p : ParsedMigration) : ParsedMigration :=
  match d with
  | .up => ⟨p.UpStatements, p.DownStatements, true, p.DisableTransactionDown⟩
  | .down => ⟨p.UpStatements, p.DownStatements, p.DisableTransactionUp, true⟩
  | .none => p

/-- Appending one emitted statement to the list of the given direction. -/
def pushStatement (d : migrationDirection) (p : ParsedMigration)
    (st : migrationStatement) : ParsedMigration :=
  match d with
  | .up => ⟨p.UpStatements ++ [st], p.DownStatements,
            p.DisableTransactionUp, p.DisableTransactionDown⟩
  | .down => ⟨p.UpStatements, p.DownStatements ++ [st],
              p.DisableTransactionUp, p.DisableTransactionDown⟩
  | .none => p

/-- The annotation line selecting a direction. -/
def dirLine (d : migrationDirection) : String :=
  match d with
  | .up => "-- +migrate Up"
  | .down => "-- +migrate Down"
  | .none => ""

/-- The statement list of a direction. -/
def dirStatements (d : migrationDirection) (p : ParsedMigration) :
    List migrationStatement :=
  match d with
  | .up => p.UpStatements
  | .down => p.DownStatements
  | .none => []

/-- The opposite direction. -/
def otherDir : migrationDirection → migrationDirection
  | .up => .down
  | .down => .up
  | .none => .none

/-- The disable-transaction flag of a direction. -/
def dirDisable (d : migrationDirection) (p : ParsedMigration) : Bool :=
  match d with
  | .up => p.DisableTransactionUp
  | .down => p.DisableTransactionDown
  | .none => false

/-- Join lines with trailing newlines, as the buffers accumulate them. -/
def joinNl : List String → String
  | [] => ""
  | l :: ls => l ++ "\n" ++ joinNl ls

theorem emitStatement_eq {s : ParserState} (hd : s.currentDirection ≠ .none) :
    emitStatement s =
      .ok { s with statementEnded := false, isLoop := false,
                   statementBuf := "", conditionalBuf := "",
                   p := pushStatement s.currentDirection s.p
                          ⟨s.statementBuf, s.isLoop, s.conditionalBuf⟩ } := by
  unfold emitStatement pushStatement
  cases hdd : s.currentDirection with
  | none => exact absurd hdd hd
  | up => rfl
  | down => rfl

theorem runLines_append (sep : String) (l1 l2 : List String) (s : ParserState) :
    runLines sep s (l1 ++ l2) =
      match runLines sep s l1 with
      | .error e => .error e
      | .ok s' => runLines sep s' l2 := by
  induction l1 generalizing s with
  | nil => rfl
  | cons l ls ih =>
    show runLines sep s (l :: (ls ++ l2)) = _
    cases hp : processLine sep s l with
    | error e => simp only [runLines, hp]
    | ok s1 =>
      simp only [runLines, hp]
      exact ih s1

theorem processLine_append {line : String} {s : ParserState}
    (hline : strStarts line "-- " = false)
    (hnb : s.ignoreSemicolons = true ∨ endsWithSemicolon line = false)
    (hl : s.isLoop = false) (hst : s.statementEnded = false)
    (hd : s.currentDirection ≠ .none) :
    processLine "" s line =
      .ok { s with statementBuf := s.statementBuf ++ line ++ "\n" } := by
  have hnsl : ¬ isSepLine s.ignoreSemicolons "" line := fun h => h.2.1 rfl
  unfold processLine
  rw [if_neg (by simp [hline]), handleCommand_noCmd s (strStarts_cmd_eq_false hline)]
  show (if s.currentDirection = .none then (Except.ok s : Except ParseError ParserState)
        else maybeEmit "" (bufferLine "" s line) line) = _
  rw [if_neg hd]
  have hbl : bufferLine "" s line =
      { s with statementBuf := s.statementBuf ++ line ++ "\n" } := by
    unfold bufferLine bufferPlain
    rw [if_pos ⟨hnsl, strStarts_plus_eq_false hline, hl⟩]
    unfold bufferLoop
    rw [if_neg (by simp [hl])]
  rw [hbl]
  unfold maybeEmit
  rw [if_neg ?_]
  rintro (⟨hig2, hor | hor⟩ | hse)
  · rcases hnb with hnb | hnb
    · exact Bool.noConfusion (hnb.symm.trans hig2)
    · exact Bool.noConfusion (hnb.symm.trans hor)
  · exact hor.2.1 rfl
  · exact Bool.noConfusion (hst.symm.trans hse)

theorem processLine_flush {line : String} {s : ParserState}
    (hline : strStarts line "-- " = false)
    (hews : endsWithSemicolon line = true)
    (hig : s.ignoreSemicolons = false)
    (hl : s.isLoop = false) (hst : s.statementEnded = false)
    (hd : s.currentDirection ≠ .none) :
    processLine "" s line =
      .ok { s with statementEnded := false, isLoop := false,
                   statementBuf := "", conditionalBuf := "",
                   p := pushStatement s.currentDirection s.p
                          ⟨s.statementBuf ++ line ++ "\n", false, s.conditionalBuf⟩ } := by
  have hnsl : ¬ isSepLine s.ignoreSemicolons "" line := fun h => h.2.1 rfl
  unfold processLine
  rw [if_neg (by simp [hline]), handleCommand_noCmd s (strStarts_cmd_eq_false hline)]
  show (if s.currentDirection = .none then (Except.ok s : Except ParseError ParserState)
        else maybeEmit "" (bufferLine "" s line) line) = _
  rw [if_neg hd]
  have hbl : bufferLine "" s line =
      { s with statementBuf := s.statementBuf ++ line ++ "\n" } := by
    unfold bufferLine bufferPlain
    rw [if_pos ⟨hnsl, strStarts_plus_eq_false hline, hl⟩]
    unfold bufferLoop
    rw [if_neg (by simp [hl])]
  rw [hbl]
  unfold maybeEmit
  rw [if_pos (Or.inl ⟨hig, Or.inl hews⟩)]
  rw [emitStatement_eq (show ({ s with statementBuf := s.statementBuf ++ line ++ "\n" } :
        ParserState).currentDirection ≠ .none from hd)]
  simp [hl]

theorem maybeEmit_noop {sep line : String} {s : ParserState}
    (hews : endsWithSemicolon line = false) (hsl : ¬ isSepLine s.ignoreSemicolons sep line)
    (hst : s.statementEnded = false) :
    maybeEmit sep s line = .ok s := by
  unfold maybeEmit
  rw [if_neg ?_]
  rintro (⟨-, hor | hor⟩ | hse)
  · exact Bool.noConfusion (hews.symm.trans hor)
  · exact hsl hor
  · exact Bool.noConfusion (hst.symm.trans hse)

theorem maybeEmit_noop_ign {sep line : String} {s : ParserState}
    (hig : s.ignoreSemicolons = true) (hst : s.statementEnded = false) :
    maybeEmit sep s line = .ok s := by
  unfold maybeEmit
  rw [if_neg ?_]
  rintro (⟨hig2, -⟩ | hse)
  · exact Bool.noConfusion (hig.symm.trans hig2)
  · exact Bool.noConfusion (hst.symm.trans hse)

theorem bufferLine_loop {sep line : String} {s : ParserState} (hl : s.isLoop = true) :
    bufferLine sep s line =
      if s.isConditional = true
      then { s with conditionalBuf := s.conditionalBuf ++ line ++ "\n" }
      else { s with statementBuf := s.statementBuf ++ line ++ "\n" } := by
  unfold bufferLine bufferPlain
  rw [if_neg (fun h => Bool.noConfusion (hl.symm.trans h.2.2))]
  unfold bufferLoop
  rw [if_pos hl]

theorem step_up {s : ParserState} (hbuf : trimSpace s.statementBuf = "")
    (hl : s.isLoop = false) (hst : s.statementEnded = false) :
    processLine "" s "-- +migrate Up" = .ok { s with currentDirection := .up } := by
  have hA : applyCommand s ⟨"Up", []⟩ = .ok { s with currentDirection := .up } := by
    unfold applyCommand
    rw [if_pos (by decide), if_neg (by simp [hbuf]), if_neg (by decide)]
  unfold processLine
  rw [if_neg (by decide),
      show handleCommand s "-- +migrate Up" = applyCommand s ⟨"Up", []⟩ from rfl, hA]
  show (if (_ : ParserState).currentDirection = .none then _ else _) = _
  rw [if_neg (by simp)]
  rw [bufferLine_noAppend (s := { s with currentDirection := .up }) hl (Or.inl (by decide))]
  exact maybeEmit_noop (by decide) (fun h => h.2.1 rfl) hst

theorem step_down {s : ParserState} (hbuf : trimSpace s.statementBuf = "")
    (hl : s.isLoop = false) (hst : s.statementEnded = false) :
    processLine "" s "-- +migrate Down" = .ok { s with currentDirection := .down } := by
  have hA : applyCommand s ⟨"Down", []⟩ = .ok { s with currentDirection := .down } := by
    unfold applyCommand
    rw [if_neg (by decide), if_pos (by decide), if_neg (by simp [hbuf]), if_neg (by decide)]
  unfold processLine
  rw [if_neg (by decide),
      show handleCommand s "-- +migrate Down" = applyCommand s ⟨"Down", []⟩ from rfl, hA]
  show (if (_ : ParserState).currentDirection = .none then _ else _) = _
  rw [if_neg (by simp)]
  rw [bufferLine_noAppend (s := { s with currentDirection := .down }) hl (Or.inl (by decide))]
  exact maybeEmit_noop (by decide) (fun h => h.2.1 rfl) hst

theorem step_dir {d : migrationDirection} (hd : d = .up ∨ d = .down) {s : ParserState}
    (hbuf : trimSpace s.statementBuf = "") (hl : s.isLoop = false)
    (hst : s.statementEnded = false) :
    processLine "" s (dirLine d) = .ok { s with currentDirection := d } := by
  rcases hd with hd | hd <;> subst hd
  · exact step_up hbuf hl hst
  · exact step_down hbuf hl hst

theorem step_stmtBegin {s : ParserState} (hl : s.isLoop = false)
    (hc : s.isConditional = false) (hst : s.statementEnded = false)
    (hd : s.currentDirection ≠ .none) :
    processLine "" s "-- +migrate StatementBegin" =
      .ok { s with ignoreSemicolons := true } := by
  have hA : applyCommand s ⟨"StatementBegin", []⟩ =
      .ok { s with ignoreSemicolons := true } := by
    unfold applyCommand
    rw [if_neg (by decide), if_neg (by decide), if_pos (by decide),
        if_neg (by simp [hl, hc])]
    cases hdd : s.currentDirection with
    | none => exact absurd hdd hd
    | up => rfl
    | down => rfl
  unfold processLine
  rw [if_neg (by decide),
      show handleCommand s "-- +migrate StatementBegin" =
        applyCommand s ⟨"StatementBegin", []⟩ from rfl, hA]
  show (if (_ : ParserState).currentDirection = .none then _ else _) = _
  rw [if_neg hd]
  rw [bufferLine_noAppend (s := { s with ignoreSemicolons := true }) hl (Or.inl (by decide))]
  exact maybeEmit_noop (by decide) (fun h => h.2.1 rfl) hst

theorem step_stmtEnd {s : ParserState} (hl : s.isLoop = false)
    (hc : s.isConditional = false) (hig : s.ignoreSemicolons = true)
    (hd : s.currentDirection ≠ .none) :
    processLine "" s "-- +migrate StatementEnd" =
      .ok { s with statementEnded := false, ignoreSemicolons := false, isLoop := false,
                   statementBuf := "", conditionalBuf := "",
                   p := pushStatement s.currentDirection s.p
                          ⟨s.statementBuf, false, s.conditionalBuf⟩ } := by
  have hA : applyCommand s ⟨"StatementEnd", []⟩ =
      .ok { s with statementEnded := s.ignoreSemicolons, ignoreSemicolons := false } := by
    unfold applyCommand
    rw [if_neg (by decide), if_neg (by decide), if_neg (by decide), if_pos (by decide),
        if_neg (by simp [hl, hc])]
    cases hdd : s.currentDirection with
    | none => exact absurd hdd hd
    | up => rfl
    | down => rfl
  unfold processLine
  rw [if_neg (by decide),
      show handleCommand s "-- +migrate StatementEnd" =
        applyCommand s ⟨"StatementEnd", []⟩ from rfl, hA]
  show (if (_ : ParserState).currentDirection = .none then _ else _) = _
  rw [if_neg hd]
  rw [bufferLine_noAppend (s := { s with statementEnded := s.ignoreSemicolons
                                         ignoreSemicolons := false }) hl (Or.inl (by decide))]
  unfold maybeEmit
  rw [if_pos (Or.inr hig)]
  have hd2 : ({ s with statementEnded := s.ignoreSemicolons
                       ignoreSemicolons := false } :
      ParserState).currentDirection ≠ .none := hd
  rw [emitStatement_eq hd2]
  simp [hl]

theorem step_loopBegin {s : ParserState} (hig : s.ignoreSemicolons = false)
    (hc : s.isConditional = false) (hst : s.statementEnded = false)
    (hd : s.currentDirection ≠ .none) :
    processLine "" s "-- +migrate LoopBegin" =
      .ok { s with isLoop := true, ignoreSemicolons := true,
                   statementBuf := s.statementBuf ++ "-- +migrate LoopBegin" ++ "\n",
                   p := setDisable s.currentDirection s.p } := by
  have hA : applyCommand s ⟨"LoopBegin", []⟩ =
      .ok { s with isLoop := true, ignoreSemicolons := true,
                   p := setDisable s.currentDirection s.p } := by
    unfold applyCommand setDisable
    rw [if_neg (by decide), if_neg (by decide), if_neg (by decide), if_neg (by decide),
        if_neg (by decide), if_neg (by decide), if_pos (by decide), if_neg (by simp [hig])]
    cases hdd : s.currentDirection with
    | none => exact absurd hdd hd
    | up => rfl
    | down => rfl
  unfold processLine
  rw [if_neg (by decide),
      show handleCommand s "-- +migrate LoopBegin" =
        applyCommand s ⟨"LoopBegin", []⟩ from rfl, hA]
  show (if (_ : ParserState).currentDirection = .none then _ else _) = _
  rw [if_neg hd]
  rw [bufferLine_loop rfl, if_neg (by simp [hc])]
  exact maybeEmit_noop_ign rfl hst

theorem step_condBegin {s : ParserState} (hl : s.isLoop = true)
    (hig : s.ignoreSemicolons = true) (hst : s.statementEnded = false)
    (hd : s.currentDirection ≠ .none) :
    processLine "" s "-- +migrate ConditionalBegin" =
      .ok { s with isConditional := true,
                   conditionalBuf := s.conditionalBuf ++ "-- +migrate ConditionalBegin" ++ "\n" } := by
  have hA : applyCommand s ⟨"ConditionalBegin", []⟩ =
      .ok { s with isConditional := true } := by
    unfold applyCommand
    rw [if_neg (by decide), if_neg (by decide), if_neg (by decide), if_neg (by decide),
        if_pos (by decide), if_neg (by simp [hl])]
  unfold processLine
  rw [if_neg (by decide),
      show handleCommand s "-- +migrate ConditionalBegin" =
        applyCommand s ⟨"ConditionalBegin", []⟩ from rfl, hA]
  show (if (_ : ParserState).currentDirection = .none then _ else _) = _
  rw [if_neg hd]
  rw [bufferLine_loop (show ({s with isConditional := true} :
        ParserState).isLoop = true from hl), if_pos rfl]
  exact maybeEmit_noop_ign hig hst

theorem step_condEnd {s : ParserState} (hl : s.isLoop = true)
    (hig : s.ignoreSemicolons = true) (hst : s.statementEnded = false)
    (hd : s.currentDirection ≠ .none) :
    processLine "" s "-- +migrate ConditionalEnd" =
      .ok { s with isConditional := false,
                   statementBuf := s.statementBuf ++ "-- +migrate ConditionalEnd" ++ "\n" } := by
  have hA : applyCommand s ⟨"ConditionalEnd", []⟩ =
      .ok { s with isConditional := false } := by
    unfold applyCommand
    rw [if_neg (by decide), if_neg (by decide), if_neg (by decide), if_neg (by decide),
        if_neg (by decide), if_pos (by decide)]
  unfold processLine
  rw [if_neg (by decide),
      show handleCommand s "-- +migrate ConditionalEnd" =
        applyCommand s ⟨"ConditionalEnd", []⟩ from rfl, hA]
  show (if (_ : ParserState).currentDirection = .none then _ else _) = _
  rw [if_neg hd]
  rw [bufferLine_loop (show ({s with isConditional := false} :
        ParserState).isLoop = true from hl), if_neg (by simp)]
  exact maybeEmit_noop_ign hig hst

theorem step_loopEnd {s : ParserState} (hl : s.isLoop = true)
    (hc : s.isConditional = false) (hig : s.ignoreSemicolons = true)
    (hd : s.currentDirection ≠ .none) :
    processLine "" s "-- +migrate LoopEnd" =
      .ok { s with statementEnded := false, ignoreSemicolons := false, isLoop := false,
                   statementBuf := "", conditionalBuf := "",
                   p := pushStatement s.currentDirection s.p
                          ⟨s.statementBuf ++ "-- +migrate LoopEnd" ++ "\n", true,
                           s.conditionalBuf⟩ } := by
  have hA : applyCommand s ⟨"LoopEnd", []⟩ =
      .ok { s with statementEnded := s.ignoreSemicolons, ignoreSemicolons := false } := by
    unfold applyCommand
    rw [if_neg (by decide), if_neg (by decide), if_neg (by decide), if_neg (by decide),
        if_neg (by decide), if_neg (by decide), if_neg (by decide), if_pos (by decide),
        if_neg (by simp [hc]), if_neg (by simp [hl])]
    cases hdd : s.currentDirection with
    | none => exact absurd hdd hd
    | up => rfl
    | down => rfl
  unfold processLine
  rw [if_neg (by decide),
      show handleCommand s "-- +migrate LoopEnd" =
        applyCommand s ⟨"LoopEnd", []⟩ from rfl, hA]
  show (if (_ : ParserState).currentDirection = .none then _ else _) = _
  rw [if_neg hd]
  have hl2 : ({ s with statementEnded := s.ignoreSemicolons
                       ignoreSemicolons := false } :
      ParserState).isLoop = true := hl
  rw [bufferLine_loop hl2, if_neg (by simp [hc])]
  have hd3 : ({ s with statementEnded := s.ignoreSemicolons
                       ignoreSemicolons := false
                       statementBuf := s.statementBuf ++ "-- +migrate LoopEnd" ++ "\n" } :
      ParserState).currentDirection ≠ .none := hd
  rw [show maybeEmit "" ({ s with statementEnded := s.ignoreSemicolons
                                  ignoreSemicolons := false
                                  statementBuf := s.statementBuf ++ "-- +migrate LoopEnd" ++ "\n" } :
        ParserState) "-- +migrate LoopEnd" = _ from rfl]
  unfold maybeEmit
  rw [if_pos (Or.inr hig)]
  rw [emitStatement_eq hd3]
  simp [hl]

theorem processLine_loopContent {line : String} {s : ParserState}
    (hcmd : strStarts line sqlCmdMarker = false)
    (hl : s.isLoop = true) (hig : s.ignoreSemicolons = true)
    (hst : s.statementEnded = false) :
    processLine "" s line = .ok s ∨
    (s.isConditional = true ∧ processLine "" s line =
       .ok { s with conditionalBuf := s.conditionalBuf ++ line ++ "\n" }) ∨
    (s.isConditional = false ∧ processLine "" s line =
       .ok { s with statementBuf := s.statementBuf ++ line ++ "\n" }) := by
  by_cases hcmt : strStarts line "-- " = true ∧ strStarts line "-- +" = false
  · left
    unfold processLine
    rw [if_pos hcmt]
  · by_cases hdd : s.currentDirection = .none
    · left
      unfold processLine
      rw [if_neg hcmt, handleCommand_noCmd s hcmd]
      show (if s.currentDirection = .none then (Except.ok s : Except ParseError ParserState)
            else maybeEmit "" (bufferLine "" s line) line) = _
      rw [if_pos hdd]
    · cases hic : s.isConditional with
      | true =>
        right; left
        refine ⟨rfl, ?_⟩
        unfold processLine
        rw [if_neg hcmt, handleCommand_noCmd s hcmd]
        show (if s.currentDirection = .none then (Except.ok s : Except ParseError ParserState)
              else maybeEmit "" (bufferLine "" s line) line) = _
        rw [if_neg hdd, bufferLine_loop hl, if_pos hic,
            maybeEmit_noop_ign (s := { s with conditionalBuf :=
              s.conditionalBuf ++ line ++ "\n" }) hig hst, hic]
      | false =>
        right; right
        refine ⟨rfl, ?_⟩
        unfold processLine
        rw [if_neg hcmt, handleCommand_noCmd s hcmd]
        show (if s.currentDirection = .none then (Except.ok s : Except ParseError ParserState)
              else maybeEmit "" (bufferLine "" s line) line) = _
        rw [if_neg hdd, bufferLine_loop hl, if_neg (by simp [hic]),
            maybeEmit_noop_ign (s := { s with statementBuf :=
              s.statementBuf ++ line ++ "\n" }) hig hst, hic]

/-! ## Folding whole statement bodies -/

theorem strApp_nil (a : String) : a ++ "" = a := by
  apply String.ext
  simp [strApp_data]

theorem runLines_cons_ok {sep l : String} {ls : List String} {s s' : ParserState}
    (h : processLine sep s l = .ok s') :
    runLines sep s (l :: ls) = runLines sep s' ls := by
  simp only [runLines, h]

theorem runLines_loopBody (ls : List String) :
    ∀ s : ParserState, (∀ l ∈ ls, strStarts l sqlCmdMarker = false) →
      s.isLoop = true → s.ignoreSemicolons = true → s.isConditional = false →
      s.statementEnded = false →
      ∃ b, runLines "" s ls = .ok { s with statementBuf := s.statementBuf ++ b } := by
  induction ls with
  | nil =>
    intro s _ _ _ _ _
    refine ⟨"", ?_⟩
    show Except.ok s = _
    rw [strApp_nil]
  | cons l ls ih =>
    intro s hls hl hig hc hst
    rcases processLine_loopContent (hls l (by simp)) hl hig hst with h | ⟨hic, -⟩ | ⟨-, h⟩
    · obtain ⟨b, hb⟩ := ih s (fun x hx => hls x (by simp [hx])) hl hig hc hst
      exact ⟨b, by rw [runLines_cons_ok h]; exact hb⟩
    · exact absurd hic (by simp [hc])
    · obtain ⟨b, hb⟩ := ih { s with statementBuf := s.statementBuf ++ l ++ "\n" }
        (fun x hx => hls x (by simp [hx])) hl hig hc hst
      refine ⟨l ++ "\n" ++ b, ?_⟩
      rw [runLines_cons_ok h, hb]
      simp only [strApp_assoc]

theorem runLines_condBody (ls : List String) :
    ∀ s : ParserState, (∀ l ∈ ls, strStarts l sqlCmdMarker = false) →
      s.isLoop = true → s.ignoreSemicolons = true → s.isConditional = true →
      s.statementEnded = false →
      ∃ b, runLines "" s ls = .ok { s with conditionalBuf := s.conditionalBuf ++ b } := by
  induction ls with
  | nil =>
    intro s _ _ _ _ _
    refine ⟨"", ?_⟩
    show Except.ok s = _
    rw [strApp_nil]
  | cons l ls ih =>
    intro s hls hl hig hc hst
    rcases processLine_loopContent (hls l (by simp)) hl hig hst with h | ⟨-, h⟩ | ⟨hic, -⟩
    · obtain ⟨b, hb⟩ := ih s (fun x hx => hls x (by simp [hx])) hl hig hc hst
      exact ⟨b, by rw [runLines_cons_ok h]; exact hb⟩
    · obtain ⟨b, hb⟩ := ih { s with conditionalBuf := s.conditionalBuf ++ l ++ "\n" }
        (fun x hx => hls x (by simp [hx])) hl hig hc hst
      refine ⟨l ++ "\n" ++ b, ?_⟩
      rw [runLines_cons_ok h, hb]
      simp only [strApp_assoc]
    · exact absurd hic (by simp [hc])

theorem runLines_ignoredBody (ls : List String) :
    ∀ s : ParserState, (∀ l ∈ ls, strStarts l "-- " = false) →
      s.ignoreSemicolons = true → s.isLoop = false →
      s.statementEnded = false → s.currentDirection ≠ .none →
      runLines "" s ls = .ok { s with statementBuf := s.statementBuf ++ joinNl ls } := by
  induction ls with
  | nil =>
    intro s _ _ _ _ _
    show Except.ok s = _
    rw [show joinNl [] = "" from rfl, strApp_nil]
  | cons l ls ih =>
    intro s hls hig hl hst hd
    rw [runLines_cons_ok (processLine_append (hls l (by simp)) (Or.inl hig) hl hst hd)]
    rw [ih { s with statementBuf := s.statementBuf ++ l ++ "\n" }
          (fun x hx => hls x (by simp [hx])) hig hl hst hd]
    simp only [joinNl, strApp_assoc]

theorem runLines_group (pre : List String) :
    ∀ (last : String) (s : ParserState),
      (∀ l ∈ pre, strStarts l "-- " = false ∧ endsWithSemicolon l = false) →
      strStarts last "-- " = false → endsWithSemicolon last = true →
      s.ignoreSemicolons = false → s.isLoop = false →
      s.statementEnded = false → s.currentDirection ≠ .none →
      runLines "" s (pre ++ [last]) =
        .ok { s with statementEnded := false, isLoop := false,
                     statementBuf := "", conditionalBuf := "",
                     p := pushStatement s.currentDirection s.p
                            ⟨s.statementBuf ++ joinNl (pre ++ [last]), false,
                             s.conditionalBuf⟩ } := by
  induction pre with
  | nil =>
    intro last s _ hlast hews hig hl hst hd
    show runLines "" s (last :: []) = _
    rw [runLines_cons_ok (processLine_flush hlast hews hig hl hst hd)]
    show Except.ok _ = _
    simp only [joinNl, strApp_assoc, strApp_nil]
  | cons l pre ih =>
    intro last s hpre hlast hews hig hl hst hd
    show runLines "" s (l :: (pre ++ [last])) = _
    rw [runLines_cons_ok (processLine_append (hpre l (by simp)).1
        (Or.inr (hpre l (by simp)).2) hl hst hd)]
    rw [ih last { s with statementBuf := s.statementBuf ++ l ++ "\n" }
          (fun x hx => hpre x (by simp [hx])) hlast hews hig hl hst hd]
    simp only [joinNl, strApp_assoc, List.append_eq]

/-! ## Scripts made of semicolon-terminated statements -/

/-- One source statement: some continuation lines and the final line that
carries the terminating semicolon. -/
def stmtLines (g : List String × String) : List String := g.1 ++ [g.2]

/-- The lines of a script that is a plain sequence of statements. -/
def scriptLines (gs : List (List String × String)) : List String :=
  (gs.map stmtLines).flatten

/-- The text the parser accumulates for one statement. -/
def stmtText (g : List String × String) : String := joinNl (g.1 ++ [g.2])

/-- Side conditions making a group of lines one plain statement: no line is
comment-like, only the last line ends with a semicolon. -/
def goodStmt (g : List String × String) : Prop :=
  (∀ l ∈ g.1, strStarts l "-- " = false ∧ endsWithSemicolon l = false) ∧
  strStarts g.2 "-- " = false ∧ endsWithSemicolon g.2 = true

instance (g : List String × String) : Decidable (goodStmt g) := by
  unfold goodStmt
  infer_instance

theorem runLines_script (gs : List (List String × String)) :
    ∀ s : ParserState, (∀ g ∈ gs, goodStmt g) →
      s.ignoreSemicolons = false → s.isLoop = false → s.statementEnded = false →
      s.statementBuf = "" → s.conditionalBuf = "" → s.currentDirection ≠ .none →
      runLines "" s (scriptLines gs) =
        .ok { s with statementEnded := false, isLoop := false,
                     statementBuf := "", conditionalBuf := "",
                     p := gs.foldl (fun p g =>
                            pushStatement s.currentDirection p ⟨stmtText g, false, ""⟩)
                            s.p } := by
  induction gs with
  | nil =>
    intro s _ _ hl hst hbuf hcb _
    obtain ⟨p0, sb, cb, se, ig, dir, il, ic⟩ := s
    subst hst hbuf hcb hl
    rfl
  | cons g gs ih =>
    intro s hgs hig hl hst hbuf hcb hd
    show runLines "" s ((g.1 ++ [g.2]) ++ scriptLines gs) = _
    rw [runLines_append]
    rw [runLines_group g.1 g.2 s (hgs g (by simp)).1 (hgs g (by simp)).2.1
        (hgs g (by simp)).2.2 hig hl hst hd]
    show runLines "" _ (scriptLines gs) = _
    rw [ih { s with statementEnded := false
                    isLoop := false
                    statementBuf := ""
                    conditionalBuf := ""
                    p := pushStatement s.currentDirection s.p
                           ⟨s.statementBuf ++ joinNl (g.1 ++ [g.2]), false, s.conditionalBuf⟩ }
          (fun x hx => hgs x (by simp [hx])) hig rfl rfl rfl rfl hd]
    simp only [hbuf, hcb, strApp_empty_left, stmtText, List.foldl]

theorem foldl_push_up (gs : List (List String × String)) :
    ∀ p : ParsedMigration,
      gs.foldl (fun p g => pushStatement .up p ⟨stmtText g, false, ""⟩) p =
        ⟨p.UpStatements ++ gs.map (fun g => ⟨stmtText g, false, ""⟩),
         p.DownStatements, p.DisableTransactionUp, p.DisableTransactionDown⟩ := by
  induction gs with
  | nil =>
    intro p
    obtain ⟨u, d, a, b⟩ := p
    simp
  | cons g gs ih =>
    intro p
    show gs.foldl _ (pushStatement .up p ⟨stmtText g, false, ""⟩) = _
    rw [ih]
    simp [pushStatement]

/-! ## Claim C4 -/

/-- C4: a script that is a single `Up` annotation followed by N
semicolon-terminated statements (each statement some continuation lines plus
a final line whose last non-comment word ends in a semicolon, none of them
comment-like) parses to exactly those N statements, in source order, as
`upStatements`, with `downStatements` empty. -/
theorem singleUp_semicolon_script {gs : List (List String × String)}
    (hgs : ∀ g ∈ gs, goodStmt g) :
    ∃ doc, ParseMigration "" ("-- +migrate Up" :: scriptLines gs) = .ok doc ∧
      doc.UpStatements = gs.map (fun g => ⟨stmtText g, false, ""⟩) ∧
      doc.DownStatements = [] := by
  refine ⟨⟨gs.map (fun g => ⟨stmtText g, false, ""⟩), [], false, false⟩, ?_, rfl, rfl⟩
  rw [ParseMigration_ok_iff]
  refine ⟨{ initialState with
            p := ⟨gs.map (fun g => ⟨stmtText g, false, ""⟩), [], false, false⟩ }, ?_, ?_⟩
  · rw [runLines_cons_ok (step_up (s := initialState) rfl rfl rfl)]
    rw [runLines_script gs { initialState with currentDirection := .up }
          hgs rfl rfl rfl rfl rfl (by simp)]
    rw [foldl_push_up]
    simp [initialState]
  · rfl

/-! ## Claim C10 -/

/-- C10: the working direction starts at Up, not None: a script containing
no annotation at all, whose lines form semicolon-terminated statements,
parses successfully and all its statements are attributed to the Up
direction. -/
theorem flyway_script_parses_as_up {gs : List (List String × String)}
    (hgs : ∀ g ∈ gs, goodStmt g) :
    initialState.currentDirection = .up ∧
    ∃ doc, ParseMigration "" (scriptLines gs) = .ok doc ∧
      doc.UpStatements = gs.map (fun g => ⟨stmtText g, false, ""⟩) ∧
      doc.DownStatements = [] := by
  refine ⟨rfl, ⟨gs.map (fun g => ⟨stmtText g, false, ""⟩), [], false, false⟩, ?_, rfl, rfl⟩
  rw [ParseMigration_ok_iff]
  refine ⟨{ initialState with
            p := ⟨gs.map (fun g => ⟨stmtText g, false, ""⟩), [], false, false⟩ }, ?_, ?_⟩
  · rw [runLines_script gs initialState hgs rfl rfl rfl rfl rfl (by simp [initialState])]
    rw [show initialState.currentDirection = .up from rfl, foldl_push_up]
    simp [initialState]
  · rfl

/-! ## Claim C5 -/

/-- C5: a direction section wrapping a body (lines that are not
comment-like, possibly full of semicolons) between `StatementBegin` and a
matching `StatementEnd` yields exactly one statement block for that region,
whose text is the whole body joined verbatim — embedded semicolons are not
split. -/
theorem statementBlock_not_split {d : migrationDirection} (hd : d = .up ∨ d = .down)
    {body : List String} (hbody : ∀ l ∈ body, strStarts l "-- " = false) :
    ∃ doc, ParseMigration "" (dirLine d :: "-- +migrate StatementBegin" ::
        (body ++ ["-- +migrate StatementEnd"])) = .ok doc ∧
      dirStatements d doc = [⟨joinNl body, false, ""⟩] ∧
      dirStatements (otherDir d) doc = [] := by
  have hdne : d ≠ .none := by rcases hd with h | h <;> subst h <;> simp
  refine ⟨pushStatement d ⟨[], [], false, false⟩ ⟨joinNl body, false, ""⟩, ?_, ?_, ?_⟩
  · rw [ParseMigration_ok_iff]
    refine ⟨{ initialState with
              currentDirection := d
              p := pushStatement d ⟨[], [], false, false⟩ ⟨joinNl body, false, ""⟩ }, ?_, ?_⟩
    · rw [runLines_cons_ok (step_dir hd (s := initialState) rfl rfl rfl)]
      rw [runLines_cons_ok (step_stmtBegin
            (s := { initialState with currentDirection := d }) rfl rfl rfl hdne)]
      rw [runLines_append]
      rw [runLines_ignoredBody body
            { initialState with currentDirection := d, ignoreSemicolons := true }
            hbody rfl rfl rfl hdne]
      show runLines ""
          (⟨⟨[], [], false, false⟩, "" ++ joinNl body, "", false, true, d, false, false⟩ :
            ParserState) ["-- +migrate StatementEnd"] = _
      rw [runLines_cons_ok (step_stmtEnd
            (s := ⟨⟨[], [], false, false⟩, "" ++ joinNl body, "", false, true, d, false, false⟩)
            rfl rfl rfl hdne)]
      show Except.ok _ = _
      simp only [strApp_empty_left]
      rfl
    · unfold finishMigration
      rw [if_neg (by simp [initialState]), if_neg (by simp [initialState]),
          if_neg (by simp [initialState]), if_neg hdne, if_neg (fun h => h.1 rfl)]
  · rcases hd with h | h <;> subst h <;> rfl
  · rcases hd with h | h <;> subst h <;> rfl

/-- C5, witness: a concrete Up section whose statement block holds two
embedded semicolons yields one statement with the body unsplit. -/
theorem statementBlock_not_split_witness :
    ∃ doc, ParseMigration "" ("-- +migrate Up" :: "-- +migrate StatementBegin" ::
        (["a; b;", "c;"] ++ ["-- +migrate StatementEnd"])) = .ok doc ∧
      dirStatements .up doc = [⟨joinNl ["a; b;", "c;"], false, ""⟩] ∧
      dirStatements (otherDir .up) doc = [] :=
  statementBlock_not_split (Or.inl rfl) (by decide)

/-- C4, witness: two concrete semicolon-terminated statements after `Up`,
one of them two lines long, parse in order. -/
theorem singleUp_semicolon_script_witness :
    ∃ doc, ParseMigration ""
        ("-- +migrate Up" :: scriptLines [([], "x;"), (["a"], "y;")]) = .ok doc ∧
      doc.UpStatements =
        [([], "x;"), (["a"], "y;")].map
          (fun g => (⟨stmtText g, false, ""⟩ : migrationStatement)) ∧
      doc.DownStatements = [] :=
  singleUp_semicolon_script (by decide)

/-- C10, witness: a concrete annotation-free script parses into Up
statements. -/
theorem flyway_script_parses_as_up_witness :
    initialState.currentDirection = .up ∧
    ∃ doc, ParseMigration "" (scriptLines [([], "x;")]) = .ok doc ∧
      doc.UpStatements =
        [([], "x;")].map (fun g => (⟨stmtText g, false, ""⟩ : migrationStatement)) ∧
      doc.DownStatements = [] :=
  flyway_script_parses_as_up (by decide)

/-! ## Claim C3 -/

/-- C3: a direction section holding a `LoopBegin` line, a `ConditionalBegin`
line, a query line, a `ConditionalEnd` line, further SQL lines, and a
`LoopEnd` line emits exactly one statement block for that region, with the
loop flag set, a non-empty conditional text, and the disable-transaction
flag of the current direction forced to true (no `notransaction` option is
present on the direction line). -/
theorem loop_conditional_block {d : migrationDirection} (hd : d = .up ∨ d = .down)
    {q : String} {sqls : List String}
    (hq : strStarts q sqlCmdMarker = false)
    (hsqls : ∀ l ∈ sqls, strStarts l sqlCmdMarker = false) :
    ∃ doc st, ParseMigration "" (dirLine d :: "-- +migrate LoopBegin" ::
        "-- +migrate ConditionalBegin" :: q :: "-- +migrate ConditionalEnd" ::
        (sqls ++ ["-- +migrate LoopEnd"])) = .ok doc ∧
      dirStatements d doc = [st] ∧ st.Loop = true ∧ st.Conditional ≠ "" ∧
      dirStatements (otherDir d) doc = [] ∧ dirDisable d doc = true := by
  have hdne : d ≠ .none := by rcases hd with h | h <;> subst h <;> simp
  obtain ⟨b1, hb1⟩ := runLines_condBody [q]
    (⟨setDisable d ⟨[], [], false, false⟩, "" ++ "-- +migrate LoopBegin" ++ "\n",
      "" ++ "-- +migrate ConditionalBegin" ++ "\n", false, true, d, true, true⟩ : ParserState)
    (by intro l hl0; rw [List.mem_singleton] at hl0; subst hl0; exact hq) rfl rfl rfl rfl
  obtain ⟨b2, hb2⟩ := runLines_loopBody sqls
    (⟨setDisable d ⟨[], [], false, false⟩,
      ("" ++ "-- +migrate LoopBegin" ++ "\n") ++ "-- +migrate ConditionalEnd" ++ "\n",
      ("" ++ "-- +migrate ConditionalBegin" ++ "\n") ++ b1, false, true, d, true, false⟩ :
      ParserState)
    hsqls rfl rfl rfl rfl
  refine ⟨pushStatement d (setDisable d ⟨[], [], false, false⟩)
      ⟨((("" ++ "-- +migrate LoopBegin" ++ "\n") ++ "-- +migrate ConditionalEnd" ++ "\n")
          ++ b2) ++ "-- +migrate LoopEnd" ++ "\n", true,
        ("" ++ "-- +migrate ConditionalBegin" ++ "\n") ++ b1⟩,
    ⟨((("" ++ "-- +migrate LoopBegin" ++ "\n") ++ "-- +migrate ConditionalEnd" ++ "\n")
        ++ b2) ++ "-- +migrate LoopEnd" ++ "\n", true,
      ("" ++ "-- +migrate ConditionalBegin" ++ "\n") ++ b1⟩,
    ?_, ?_, rfl, ?_, ?_, ?_⟩
  · rw [ParseMigration_ok_iff]
    refine ⟨⟨pushStatement d (setDisable d ⟨[], [], false, false⟩)
        ⟨((("" ++ "-- +migrate LoopBegin" ++ "\n") ++ "-- +migrate ConditionalEnd" ++ "\n")
            ++ b2) ++ "-- +migrate LoopEnd" ++ "\n", true,
          ("" ++ "-- +migrate ConditionalBegin" ++ "\n") ++ b1⟩,
        "", "", false, false, d, false, false⟩, ?_, ?_⟩
    · rw [runLines_cons_ok (step_dir hd (s := initialState) rfl rfl rfl)]
      show runLines "" (⟨⟨[], [], false, false⟩, "", "", false, false, d, false, false⟩ :
          ParserState) ("-- +migrate LoopBegin" :: "-- +migrate ConditionalBegin" :: q ::
          "-- +migrate ConditionalEnd" :: (sqls ++ ["-- +migrate LoopEnd"])) = _
      rw [runLines_cons_ok (step_loopBegin
            (s := ⟨⟨[], [], false, false⟩, "", "", false, false, d, false, false⟩)
            rfl rfl rfl hdne)]
      show runLines "" (⟨setDisable d ⟨[], [], false, false⟩,
          "" ++ "-- +migrate LoopBegin" ++ "\n", "", false, true, d, true, false⟩ :
          ParserState) ("-- +migrate ConditionalBegin" :: q ::
          "-- +migrate ConditionalEnd" :: (sqls ++ ["-- +migrate LoopEnd"])) = _
      rw [runLines_cons_ok (step_condBegin
            (s := ⟨setDisable d ⟨[], [], false, false⟩,
              "" ++ "-- +migrate LoopBegin" ++ "\n", "", false, true, d, true, false⟩)
            rfl rfl rfl hdne)]
      show runLines "" (⟨setDisable d ⟨[], [], false, false⟩,
          "" ++ "-- +migrate LoopBegin" ++ "\n",
          "" ++ "-- +migrate ConditionalBegin" ++ "\n", false, true, d, true, true⟩ :
          ParserState) ([q] ++ ("-- +migrate ConditionalEnd" ::
          (sqls ++ ["-- +migrate LoopEnd"]))) = _
      rw [runLines_append, hb1]
      show runLines "" (⟨setDisable d ⟨[], [], false, false⟩,
          "" ++ "-- +migrate LoopBegin" ++ "\n",
          ("" ++ "-- +migrate ConditionalBegin" ++ "\n") ++ b1, false, true, d, true, true⟩ :
          ParserState) ("-- +migrate ConditionalEnd" :: (sqls ++ ["-- +migrate LoopEnd"])) = _
      rw [runLines_cons_ok (step_condEnd
            (s := ⟨setDisable d ⟨[], [], false, false⟩,
              "" ++ "-- +migrate LoopBegin" ++ "\n",
              ("" ++ "-- +migrate ConditionalBegin" ++ "\n") ++ b1,
              false, true, d, true, true⟩)
            rfl rfl rfl hdne)]
      show runLines "" (⟨setDisable d ⟨[], [], false, false⟩,
          ("" ++ "-- +migrate LoopBegin" ++ "\n") ++ "-- +migrate ConditionalEnd" ++ "\n",
          ("" ++ "-- +migrate ConditionalBegin" ++ "\n") ++ b1, false, true, d, true, false⟩ :
          ParserState) (sqls ++ ["-- +migrate LoopEnd"]) = _
      rw [runLines_append, hb2]
      show runLines "" (⟨setDisable d ⟨[], [], false, false⟩,
          (("" ++ "-- +migrate LoopBegin" ++ "\n") ++ "-- +migrate ConditionalEnd" ++ "\n")
            ++ b2,
          ("" ++ "-- +migrate ConditionalBegin" ++ "\n") ++ b1, false, true, d, true, false⟩ :
          ParserState) ["-- +migrate LoopEnd"] = _
      rw [runLines_cons_ok (step_loopEnd
            (s := ⟨setDisable d ⟨[], [], false, false⟩,
              (("" ++ "-- +migrate LoopBegin" ++ "\n") ++ "-- +migrate ConditionalEnd"
                ++ "\n") ++ b2,
              ("" ++ "-- +migrate ConditionalBegin" ++ "\n") ++ b1,
              false, true, d, true, false⟩)
            rfl rfl rfl hdne)]
      show Except.ok _ = _
      rfl
    · unfold finishMigration
      rw [if_neg (by simp), if_neg (by simp), if_neg (by simp), if_neg hdne,
          if_neg (fun h => h.1 rfl)]
  · rcases hd with h | h <;> subst h <;> rfl
  · exact strApp_ne_empty (strApp_ne_empty (by rw [strApp_empty_left]; decide))
  · rcases hd with h | h <;> subst h <;> rfl
  · rcases hd with h | h <;> subst h <;> rfl

/-- C3, witness: a concrete Up loop with a conditional sub-block yields one
loop-flagged block with non-empty conditional text and the Up
disable-transaction flag forced true. -/
theorem loop_conditional_block_witness :
    ∃ doc st, ParseMigration "" (dirLine .up :: "-- +migrate LoopBegin" ::
        "-- +migrate ConditionalBegin" :: "SELECT 1;" :: "-- +migrate ConditionalEnd" ::
        (["UPDATE t;"] ++ ["-- +migrate LoopEnd"])) = .ok doc ∧
      dirStatements .up doc = [st] ∧ st.Loop = true ∧ st.Conditional ≠ "" ∧
      dirStatements (otherDir .up) doc = [] ∧ dirDisable .up doc = true :=
  loop_conditional_block (Or.inl rfl) (by decide) (by decide)

end Sqlparse
